import Mathlib

/-!
Verification of the euvote backend (src/api.py): the participant / game
data model, the vote-registration operation, JSON (de)serialization and
the file-backed game endpoints, embedded shallowly and checked against
the specification's claims.
-/

namespace Euvote

/-- JSON values as produced by `json.load`: objects are association lists
in document order.  Only integer numbers occur in this repository's
documents, so numbers are modelled as `Int`. -/
inductive JValue where
  | jnull : JValue
  | jbool : Bool → JValue
  | jint : Int → JValue
  | jstr : String → JValue
  | jarr : List JValue → JValue
  | jobj : List (String × JValue) → JValue

/-- The pydantic model `Participant` of src/api.py with exactly the fields
the source declares.  Note: the source declares `voted_for` but no
`voted_by` field, even though `register_vote_for` refers to
`self.voted_by`.  `Dict[str, int]` is modelled as an association list in
insertion order. -/
structure Participant where
  name : String
  avatar : Option String := none
  points : Int := 0
  j_75_played : Bool := false
  j_100_played : Bool := false
  available_votes : List Int := [12, 10, 8, 7, 6, 5, 4, 3, 2, 1]
  voted_for : List (String × Int) := []
  can_vote : Bool := true
  is_checked : Bool := false
deriving DecidableEq, Repr

/-- Python dict assignment `d[k] = v`: update in place when the key is
present (keeping its position), otherwise append at the end. -/
def dictSet (d : List (String × Int)) (k : String) (v : Int) : List (String × Int) :=
  match d with
  | [] => [(k, v)]
  | (k', v') :: rest => if k' = k then (k, v) :: rest else (k', v') :: dictSet rest k v

/-- Result of one call to `Participant.register_vote_by`: a normal return
or a propagating `IllegalVote` exception.  Both carry the final states of
the two participant objects, because Python mutation persists even when
the exception escapes.  First component: the receiver (`self`), second:
the argument (`vote_for`). -/
inductive VoteOutcome where
  | ok : Participant → Participant → VoteOutcome
  | illegal : Participant → Participant → VoteOutcome
deriving DecidableEq, Repr

/-- Final state of the receiver object after the call. -/
def VoteOutcome.selfState : VoteOutcome → Participant
  | .ok s _ => s
  | .illegal s _ => s

/-- Final state of the `vote_for` argument object after the call. -/
def VoteOutcome.targetState : VoteOutcome → Participant
  | .ok _ t => t
  | .illegal _ t => t

/-- Whether the call raised `IllegalVote`. -/
def VoteOutcome.isIllegal : VoteOutcome → Bool
  | .ok _ _ => false
  | .illegal _ _ => true

/-- `Participant.register_vote_by` of src/api.py, line for line: raise
`IllegalVote` when `vote` is not in `self.available_votes`; otherwise
`self.available_votes.remove(vote)` (first occurrence), write
`self.voted_for[vote_for.name] = vote`, then call `register_vote_by` —
not `register_vote_for` — on `vote_for` with the roles swapped, exactly
as line 76 of the source does, and finally recompute
`self.can_vote = bool(self.available_votes)`.  An exception from the
inner call propagates, skipping the `can_vote` update.  The recursion
terminates because each recursive call strictly decreases the number of
occurrences of `vote` in the two decks together. -/
def Participant.register_vote_by (self vote_for : Participant) (vote : Int) : VoteOutcome :=
  if h : vote ∈ self.available_votes then
    match Participant.register_vote_by vote_for
        { self with
          available_votes := self.available_votes.erase vote
          voted_for := dictSet self.voted_for vote_for.name vote } vote with
    | .illegal vf2 self2 => .illegal self2 vf2
    | .ok vf2 self2 =>
        .ok { self2 with can_vote := !self2.available_votes.isEmpty } vf2
  else
    .illegal self vote_for
termination_by self.available_votes.count vote + vote_for.available_votes.count vote
decreasing_by
  simp only [List.count_erase_self]
  have hpos : 0 < self.available_votes.count vote := List.count_pos_iff.mpr h
  omega

/-- Split a character list at `/` separators (the components of a POSIX
path, empty pieces included), accumulating the current piece in `acc`. -/
def splitComps : List Char → List Char → List (List Char)
  | [], acc => [acc.reverse]
  | c :: rest, acc => if c = '/' then acc.reverse :: splitComps rest [] else splitComps rest (c :: acc)

/-- A path component is kept by `pathlib.PurePosixPath` when it is
neither empty nor the single dot. -/
def keepComp (c : List Char) : Bool := !c.isEmpty && c ≠ ['.']

/-- Join components back with single slashes. -/
def joinComps : List (List Char) → List Char
  | [] => []
  | [c] => c
  | c :: cs => c ++ '/' :: joinComps cs

/-- The root prefix `pathlib.PurePosixPath` keeps: `//` when the string
starts with exactly two slashes, `/` when it starts with one or with
three or more, nothing otherwise. -/
def rootOf : List Char → List Char
  | [] => []
  | c1 :: rest =>
    if c1 = '/' then
      match rest with
      | [] => ['/']
      | c2 :: rest2 =>
        if c2 = '/' then
          match rest2 with
          | [] => ['/', '/']
          | c3 :: _ => if c3 = '/' then ['/'] else ['/', '/']
        else ['/']
    else []

/-- `str(pathlib.Path(s))` on POSIX, on the underlying character list:
drop empty and `.` components, keep the root, and render `.` for an
empty relative path. -/
def normChars (l : List Char) : List Char :=
  let comps := (splitComps l []).filter keepComp
  let root := rootOf l
  if root.isEmpty && comps.isEmpty then ['.'] else root ++ joinComps comps

/-- `str(pathlib.Path(s))`: the normalized form of the path string `s`.
The source stores `str(Path(load_file))` in `save_file` and the OS
resolves `open` against the same normalization, so the file store is
keyed by `pathStr` of the path used to open it. -/
def pathStr (s : String) : String := String.mk (normChars s.data)

inductive PyErr where
  | fileNotFound
  | keyError
  | typeError
  | validationError
  | illegalVote
  | participantNotFound
deriving DecidableEq, Repr

/-- Lookup in a JSON object (association list).  The documents handled
here come from `json.load`, which collapses duplicate keys, so the first
match is the binding. -/
def jlookup : List (String × JValue) → String → Option JValue
  | [], _ => none
  | (k, v) :: rest, key => if k = key then some v else jlookup rest key

/-- pydantic `Optional[str]` field with default `None`: absent or null
gives `none`, a string gives `some`. -/
def parseOptStr : Option JValue → Except PyErr (Option String)
  | none => .ok none
  | some .jnull => .ok none
  | some (.jstr s) => .ok (some s)
  | some _ => .error .validationError

/-- pydantic `int` field with a default.  Only exact JSON integers are
modelled; the numeric cross-type coercions pydantic would perform do not
occur in this repository's documents. -/
def parseIntD : Option JValue → Int → Except PyErr Int
  | none, d => .ok d
  | some (.jint n), _ => .ok n
  | some _, _ => .error .validationError

/-- pydantic `bool` field with a default (exact booleans only). -/
def parseBoolD : Option JValue → Bool → Except PyErr Bool
  | none, d => .ok d
  | some (.jbool b), _ => .ok b
  | some _, _ => .error .validationError

/-- pydantic `List[int]` from a JSON array. -/
def parseIntList : List JValue → Except PyErr (List Int)
  | [] => .ok []
  | .jint n :: rest => (parseIntList rest).map (n :: ·)
  | _ :: _ => .error .validationError

/-- `available_votes`: absent defaults to the full ranking deck. -/
def parseAvD : Option JValue → Except PyErr (List Int)
  | none => .ok [12, 10, 8, 7, 6, 5, 4, 3, 2, 1]
  | some (.jarr l) => parseIntList l
  | some _ => .error .validationError

/-- pydantic `Dict[str, int]` from a JSON object, in document order. -/
def parseIntDict : List (String × JValue) → Except PyErr (List (String × Int))
  | [] => .ok []
  | (k, .jint n) :: rest => (parseIntDict rest).map ((k, n) :: ·)
  | (_, _) :: _ => .error .validationError

/-- `voted_for`: absent defaults to the empty mapping
(`Field(default_factory=dict)`). -/
def parseVfD : Option JValue → Except PyErr (List (String × Int))
  | none => .ok []
  | some (.jobj m) => parseIntDict m
  | some _ => .error .validationError

/-- `Participant(**val)` for a JSON record `val`: each declared field is
taken from the record or defaulted when absent, extra keys are ignored
(pydantic's default `Extra.ignore`), so a `voted_by` key in a document
is dropped — the model has no such field.  A non-mapping argument raises
TypeError. -/
def parseParticipant (v : JValue) : Except PyErr Participant :=
  match v with
  | .jobj o =>
    match jlookup o "name" with
    | some (.jstr name) =>
      match parseOptStr (jlookup o "avatar") with
      | .error e => .error e
      | .ok avatar =>
      match parseIntD (jlookup o "points") 0 with
      | .error e => .error e
      | .ok points =>
      match parseBoolD (jlookup o "j_75_played") false with
      | .error e => .error e
      | .ok j75 =>
      match parseBoolD (jlookup o "j_100_played") false with
      | .error e => .error e
      | .ok j100 =>
      match parseAvD (jlookup o "available_votes") with
      | .error e => .error e
      | .ok av =>
      match parseVfD (jlookup o "voted_for") with
      | .error e => .error e
      | .ok vf =>
      match parseBoolD (jlookup o "can_vote") true with
      | .error e => .error e
      | .ok cv =>
      match parseBoolD (jlookup o "is_checked") false with
      | .error e => .error e
      | .ok ic => .ok ⟨name, avatar, points, j75, j100, av, vf, cv, ic⟩
    | some _ => .error .validationError
    | none => .error .validationError
  | _ => .error .typeError

/-- `[Participant(**val) for val in recs]`: the first raised error
propagates. -/
def parseParticipants : List JValue → Except PyErr (List Participant)
  | [] => .ok []
  | v :: rest =>
    match parseParticipant v with
    | .error e => .error e
    | .ok p =>
      match parseParticipants rest with
      | .error e => .error e
      | .ok ps => .ok (p :: ps)

/-- `Participant.dict()` as serialized by `json.dump`: every declared
field with its current value, in declaration order. -/
def dumpParticipant (p : Participant) : JValue :=
  .jobj [
    ("name", .jstr p.name),
    ("avatar", match p.avatar with | none => .jnull | some s => .jstr s),
    ("points", .jint p.points),
    ("j_75_played", .jbool p.j_75_played),
    ("j_100_played", .jbool p.j_100_played),
    ("available_votes", .jarr (p.available_votes.map .jint)),
    ("voted_for", .jobj (p.voted_for.map fun kv => (kv.1, .jint kv.2))),
    ("can_vote", .jbool p.can_vote),
    ("is_checked", .jbool p.is_checked)
  ]

/-- The pydantic model `Game` of src/api.py. `vote_buff : Optional[dict]`
is a free-form mapping, kept as raw JSON bindings. -/
structure Game where
  participants : List Participant
  save_file : Option String := none
  audio_name : Option String := none
  player_name : Option String := none
  voter : Option Participant := none
  vote_buff : Option (List (String × JValue)) := none

/-- `Game.dict()` as serialized by `json.dump`. -/
def dumpGame (g : Game) : JValue :=
  .jobj [
    ("participants", .jarr (g.participants.map dumpParticipant)),
    ("save_file", match g.save_file with | none => .jnull | some s => .jstr s),
    ("audio_name", match g.audio_name with | none => .jnull | some s => .jstr s),
    ("player_name", match g.player_name with | none => .jnull | some s => .jstr s),
    ("voter", match g.voter with | none => .jnull | some p => dumpParticipant p),
    ("vote_buff", match g.vote_buff with | none => .jnull | some o => .jobj o)
  ]

/-- The file system visible to the process: JSON documents keyed by the
`pathStr`-normalized path, since the OS resolves `"./game.json"` and
`"game.json"` to the same file. -/
def FileStore := String → Option JValue

/-- `open(path)` followed by `json.load`. -/
def readFile (fs : FileStore) (path : String) : Option JValue := fs (pathStr path)

/-- `open(path, "w")` followed by `json.dump(doc)`. -/
def writeFile (fs : FileStore) (path : String) (doc : JValue) : FileStore :=
  fun k => if k = pathStr path then some doc else fs k

/-- `Game.load_game` of src/api.py: `open(Path(load_file))`, `json.load`,
then build the participants from `data["participants"]` and set
`save_file = str(Path(load_file))`; every other game field is left at
its default `None`.  A non-mapping document raises TypeError at the
subscript, a mapping without the key raises KeyError.  When the value at
`"participants"` is not a list, the comprehension iterates it: an empty
mapping or empty string yields no records (an empty game!), any other
non-list raises TypeError at `Participant(**val)`. -/
def Game.load_game (load_file : String) (fs : FileStore) : Except PyErr Game :=
  match readFile fs load_file with
  | none => .error .fileNotFound
  | some (.jobj o) =>
    match jlookup o "participants" with
    | none => .error .keyError
    | some (.jarr recs) =>
      match parseParticipants recs with
      | .error e => .error e
      | .ok ps =>
        .ok { participants := ps, save_file := some (pathStr load_file),
              audio_name := none, player_name := none, voter := none, vote_buff := none }
    | some (.jobj []) =>
      .ok { participants := [], save_file := some (pathStr load_file),
            audio_name := none, player_name := none, voter := none, vote_buff := none }
    | some (.jstr "") =>
      .ok { participants := [], save_file := some (pathStr load_file),
            audio_name := none, player_name := none, voter := none, vote_buff := none }
    | some _ => .error .typeError
  | some _ => .error .typeError

/-- `Game.save_game`: `open(self.save_file, "w")` and
`json.dump(self.dict())`.  `save_file` is `Optional`; `open(None)`
raises TypeError. -/
def Game.save_game (g : Game) (fs : FileStore) : Except PyErr FileStore :=
  match g.save_file with
  | none => .error .typeError
  | some path => .ok (writeFile fs path (dumpGame g))

/-- Result of `Game._get_participant`. -/
inductive LookupResult where
  | found : Participant → LookupResult
  | participantNotFound : LookupResult
  | attributeError : LookupResult
deriving Repr

/-- `Game._get_participant` of src/api.py: the body evaluates
`self.participants.get(name)`, but `participants` is a Python list and
list objects have no attribute `get`, so every call raises
AttributeError before the `is None` test (which would raise
`ParticipantNotFound`) can run. -/
def Game._get_participant (_g : Game) (_name : String) : LookupResult :=
  LookupResult.attributeError

/-- The `GET /game` handler of src/api.py. -/
def get_game (fs : FileStore) : Except PyErr Game :=
  Game.load_game "./game.json" fs

/-- The `POST /reset` handler of src/api.py: load the default template,
repoint `save_file` at `"game.json"`, save. -/
def reset_game (fs : FileStore) : Except PyErr FileStore :=
  match Game.load_game "./default.game.json" fs with
  | .error e => .error e
  | .ok g => Game.save_game { g with save_file := some "game.json" } fs

/-! Concrete instances used by claim theorems, witnesses and
counterexamples. -/

/-- A fresh participant named "A" (all pydantic defaults). -/
def pA : Participant := { name := "A" }

/-- A fresh participant named "B" (all pydantic defaults). -/
def pB : Participant := { name := "B" }

/-- A participant record with an explicitly empty vote deck and the
`can_vote` field left absent. -/
def recZ : JValue := .jobj [("name", .jstr "Z"), ("available_votes", .jarr [])]

/-- The participant the record `recZ` constructs. -/
def pZ : Participant := { name := "Z", available_votes := [] }

/-- A participant record giving only a name. -/
def recW : JValue := .jobj [("name", .jstr "W")]

/-- The participant the record `recW` constructs. -/
def pW : Participant := { name := "W" }

/-- A one-document file system: a one-participant game at "g.json". -/
def fsRound : FileStore :=
  fun k =>
    if k = "g.json" then
      some (.jobj [("participants", .jarr [.jobj [("name", .jstr "R")]])])
    else none

/-- The game the document of `fsRound` loads to. -/
def gRound : Game := { participants := [{ name := "R" }], save_file := some "g.json" }

/-- A file system holding a top-level-list document at "list.json" and an
object document at "obj.json". -/
def fsForms : FileStore :=
  fun k =>
    if k = "list.json" then some (.jarr [])
    else if k = "obj.json" then
      some (.jobj [("participants", .jarr [.jobj [("name", .jstr "O")]])])
    else none

/-- A file system whose "game.json" document carries every metadata field
with a non-null persisted value. -/
def fsMeta : FileStore :=
  fun k =>
    if k = "game.json" then
      some (.jobj [
        ("participants", .jarr []),
        ("save_file", .jstr "persisted.json"),
        ("audio_name", .jstr "song"),
        ("player_name", .jstr "dj"),
        ("vote_buff", .jobj [("staged", .jint 3)])])
    else none

/-- A file system holding only the default template document. -/
def fsTemplate : FileStore :=
  fun k =>
    if k = "default.game.json" then
      some (.jobj [("participants", .jarr [.jobj [("name", .jstr "T")]])])
    else none

/-- The game the template document of `fsTemplate` loads to. -/
def gTemplate : Game :=
  { participants := [{ name := "T" }], save_file := some "default.game.json" }

theorem splitComps_no_slash :
    ∀ l acc, ('/' : Char) ∉ acc → ∀ p ∈ splitComps l acc, ('/' : Char) ∉ p := by
  intro l
  induction l with
  | nil =>
    intro acc hacc p hp
    simp only [splitComps, List.mem_singleton] at hp
    subst hp
    simpa using hacc
  | cons c rest ih =>
    intro acc hacc p hp
    by_cases hc : c = '/'
    · subst hc
      rw [splitComps, if_pos rfl] at hp
      rcases List.mem_cons.mp hp with h | h
      · subst h; simpa using hacc
      · exact ih [] (by simp) p h
    · rw [splitComps, if_neg hc] at hp
      refine ih (c :: acc) ?_ p hp
      simp only [List.mem_cons, not_or]
      exact ⟨fun h => hc h.symm, hacc⟩

theorem splitComps_append :
    ∀ p r acc, ('/' : Char) ∉ p →
      splitComps (p ++ r) acc = splitComps r (p.reverse ++ acc) := by
  intro p
  induction p with
  | nil => intro r acc _; simp
  | cons c cs ih =>
    intro r acc hp
    have hc : ¬ (c = '/') := by
      intro h; exact hp (by simp [h])
    rw [List.cons_append, splitComps, if_neg hc,
      ih r (c :: acc) (by intro h; exact hp (by simp [h]))]
    simp

theorem splitComps_single (p : List Char) (hp : ('/' : Char) ∉ p) :
    splitComps p [] = [p] := by
  have h := splitComps_append p [] [] hp
  simpa [splitComps] using h

theorem splitComps_join :
    ∀ L, L ≠ [] → (∀ p ∈ L, ('/' : Char) ∉ p) → splitComps (joinComps L) [] = L := by
  intro L
  induction L with
  | nil => intro h; exact absurd rfl h
  | cons p rest ih =>
    intro _ hL
    cases rest with
    | nil => exact splitComps_single p (hL p (by simp))
    | cons q rs =>
      rw [show joinComps (p :: q :: rs) = p ++ '/' :: joinComps (q :: rs) from rfl]
      rw [splitComps_append p _ [] (hL p (by simp))]
      rw [splitComps, if_pos rfl]
      rw [ih (by simp) (fun x hx => hL x (by simp [hx]))]
      simp

theorem joinComps_cons (p : List Char) (rest : List (List Char)) :
    ∃ t, joinComps (p :: rest) = p ++ t := by
  cases rest with
  | nil => exact ⟨[], by simp [joinComps]⟩
  | cons q rs => exact ⟨'/' :: joinComps (q :: rs), rfl⟩

theorem splitComps_slash_cons (J acc : List Char) :
    splitComps ('/' :: J) acc = acc.reverse :: splitComps J [] := by
  rw [splitComps, if_pos rfl]

theorem rootOf_cases (l : List Char) :
    rootOf l = [] ∨ rootOf l = ['/'] ∨ rootOf l = ['/', '/'] := by
  rcases l with _ | ⟨c1, _ | ⟨c2, _ | ⟨c3, r⟩⟩⟩ <;>
    simp only [rootOf] <;>
    (try split_ifs) <;> simp

theorem rootOf_head_ne (c : Char) (xs : List Char) (hc : c ≠ '/') :
    rootOf (c :: xs) = [] := by
  simp only [rootOf, if_neg hc]

theorem rootOf_one_slash (c : Char) (xs : List Char) (hc : c ≠ '/') :
    rootOf ('/' :: c :: xs) = ['/'] := by
  simp [rootOf, hc]

theorem rootOf_two_slash (c : Char) (xs : List Char) (hc : c ≠ '/') :
    rootOf ('/' :: '/' :: c :: xs) = ['/', '/'] := by
  simp [rootOf, hc]

theorem normChars_eq (l : List Char) :
    normChars l =
      if (rootOf l).isEmpty && ((splitComps l []).filter keepComp).isEmpty
      then ['.'] else rootOf l ++ joinComps ((splitComps l []).filter keepComp) := rfl

theorem normChars_idem (l : List Char) : normChars (normChars l) = normChars l := by
  have hslash : ∀ p ∈ (splitComps l []).filter keepComp, ('/' : Char) ∉ p := by
    intro p hp
    exact splitComps_no_slash l [] (by simp) p (List.mem_of_mem_filter hp)
  have hkeep : ∀ p ∈ (splitComps l []).filter keepComp, keepComp p = true := by
    intro p hp
    exact List.of_mem_filter hp
  by_cases hcond :
      ((rootOf l).isEmpty && ((splitComps l []).filter keepComp).isEmpty) = true
  · rw [normChars_eq l, if_pos hcond]
    decide
  · rw [normChars_eq l, if_neg hcond]
    rcases hc : (splitComps l []).filter keepComp with _ | ⟨p, rest⟩
    · -- no surviving components: the output is only the root, "/" or "//"
      rcases rootOf_cases l with hr | hr | hr
      · exact absurd (by rw [hr, hc]; rfl) hcond
      · rw [hr]; decide
      · rw [hr]; decide
    · -- at least one component survives the filter
      have hkp : keepComp p = true := hkeep p (by rw [hc]; exact List.mem_cons_self p rest)
      have hsp : ('/' : Char) ∉ p := hslash p (by rw [hc]; exact List.mem_cons_self p rest)
      obtain ⟨c, p', hp⟩ : ∃ c p', p = c :: p' := by
        cases p with
        | nil => simp [keepComp] at hkp
        | cons c p' => exact ⟨c, p', rfl⟩
      have hcne : c ≠ '/' := by
        intro h; exact hsp (by simp [hp, h])
      obtain ⟨t, ht⟩ := joinComps_cons p rest
      have hhead : joinComps (p :: rest) = c :: (p' ++ t) := by
        rw [ht, hp]; rfl
      have hsplit : splitComps (joinComps (p :: rest)) [] = p :: rest := by
        refine splitComps_join (p :: rest) (by simp) ?_
        intro x hx
        rw [← hc] at hx
        exact hslash x hx
      have hfilter : (p :: rest).filter keepComp = p :: rest := by
        refine List.filter_eq_self.mpr ?_
        intro a ha
        rw [← hc] at ha
        exact hkeep a ha
      rcases rootOf_cases l with hr | hr | hr
      · -- no root
        rw [hr, List.nil_append, normChars_eq, hsplit, hfilter]
        rw [show rootOf (joinComps (p :: rest)) = [] by
          rw [hhead]; exact rootOf_head_ne c _ hcne]
        simp
      · -- root "/"
        rw [hr]
        rw [show (['/'] : List Char) ++ joinComps (p :: rest) =
          '/' :: joinComps (p :: rest) from rfl]
        rw [normChars_eq]
        rw [show splitComps ('/' :: joinComps (p :: rest)) [] = [] :: p :: rest by
          rw [splitComps_slash_cons, hsplit]; rfl]
        rw [show rootOf ('/' :: joinComps (p :: rest)) = ['/'] by
          rw [hhead]; exact rootOf_one_slash c _ hcne]
        rw [show (([] : List Char) :: p :: rest).filter keepComp = p :: rest by
          rw [List.filter_cons_of_neg (by decide), hfilter]]
        simp
      · -- root "//"
        rw [hr]
        rw [show (['/', '/'] : List Char) ++ joinComps (p :: rest) =
          '/' :: '/' :: joinComps (p :: rest) from rfl]
        rw [normChars_eq]
        rw [show splitComps ('/' :: '/' :: joinComps (p :: rest)) [] =
            [] :: [] :: p :: rest by
          rw [splitComps_slash_cons, splitComps_slash_cons, hsplit]; rfl]
        rw [show rootOf ('/' :: '/' :: joinComps (p :: rest)) = ['/', '/'] by
          rw [hhead]; exact rootOf_two_slash c _ hcne]
        rw [show (([] : List Char) :: [] :: p :: rest).filter keepComp = p :: rest by
          rw [List.filter_cons_of_neg (by decide), List.filter_cons_of_neg (by decide),
            hfilter]]
        simp

theorem pathStr_idem (s : String) : pathStr (pathStr s) = pathStr s := by
  show String.mk (normChars (String.mk (normChars s.data)).data) = String.mk (normChars s.data)
  rw [show (String.mk (normChars s.data)).data = normChars s.data from rfl, normChars_idem]

/-- Python errors that this code can raise: missing file, dict key
lookup failure, operations on a value of the wrong type, pydantic
validation failure, and the two domain errors of src/api.py.  (The
domain error classes carry only a fixed status code and message.) -/
theorem parseIntList_dump : ∀ l : List Int, parseIntList (l.map .jint) = .ok l := by
  intro l
  induction l with
  | nil => rfl
  | cons n rest ih => simp [parseIntList, ih, Except.map]

theorem parseIntDict_dump :
    ∀ d : List (String × Int),
      parseIntDict (d.map fun kv => (kv.1, .jint kv.2)) = .ok d := by
  intro d
  induction d with
  | nil => rfl
  | cons kv rest ih =>
    rcases kv with ⟨k, v⟩
    simp [parseIntDict, ih, Except.map]

theorem parseParticipant_dump (p : Participant) :
    parseParticipant (dumpParticipant p) = .ok p := by
  rcases p with ⟨name, avatar, points, j75, j100, av, vf, cv, ic⟩
  cases avatar <;>
    simp +decide [parseParticipant, dumpParticipant, jlookup, parseOptStr,
      parseIntD, parseBoolD, parseAvD, parseVfD, parseIntList_dump, parseIntDict_dump]

theorem parseParticipants_dump :
    ∀ ps : List Participant, parseParticipants (ps.map dumpParticipant) = .ok ps := by
  intro ps
  induction ps with
  | nil => rfl
  | cons p rest ih => simp [parseParticipants, parseParticipant_dump, ih]

theorem load_game_shape {p : String} {fs : FileStore} {g : Game}
    (h : Game.load_game p fs = .ok g) :
    g = { participants := g.participants, save_file := some (pathStr p),
          audio_name := none, player_name := none, voter := none, vote_buff := none } := by
  unfold Game.load_game at h
  repeat' split at h
  all_goals first
    | exact Except.noConfusion h
    | (injection h with h2; subst h2; rfl)

theorem save_then_load_id {p : String} {fs : FileStore} {g : Game}
    (h : Game.load_game p fs = .ok g) :
    ∃ fs2, Game.save_game g fs = .ok fs2 ∧ Game.load_game p fs2 = .ok g := by
  have hs := load_game_shape h
  have hfile : g.save_file = some (pathStr p) := by rw [hs]
  refine ⟨writeFile fs (pathStr p) (dumpGame g), ?_, ?_⟩
  · simp only [Game.save_game, hfile]
  · simp only [Game.load_game, readFile, writeFile, dumpGame, pathStr_idem,
      if_pos rfl, jlookup, parseParticipants_dump, reduceIte]
    conv_rhs => rw [hs]

/-- Every call to `register_vote_by` ends in a propagating `IllegalVote`:
either the guard fails at once, or the mutual recursion of line 76 burns
one occurrence of the vote per level until a deck runs out.  The final
states keep the original `points` and `can_vote` of both objects, since
`register_vote_for` (the only place points move) is never called and the
`can_vote` update is skipped by the exception. -/
theorem register_vote_by_illegal :
    ∀ (n : ℕ) (A B : Participant) (v : Int),
      A.available_votes.count v + B.available_votes.count v ≤ n →
      ∃ A2 B2, Participant.register_vote_by A B v = .illegal A2 B2 ∧
        A2.points = A.points ∧ B2.points = B.points ∧
        A2.can_vote = A.can_vote ∧ B2.can_vote = B.can_vote := by
  intro n
  induction n with
  | zero =>
    intro A B v hle
    have hv : v ∉ A.available_votes := by
      intro hm
      have := List.count_pos_iff.mpr hm
      omega
    exact ⟨A, B, by rw [Participant.register_vote_by, dif_neg hv], rfl, rfl, rfl, rfl⟩
  | succ n ih =>
    intro A B v hle
    by_cases hv : v ∈ A.available_votes
    · have hcount : 0 < A.available_votes.count v := List.count_pos_iff.mpr hv
      obtain ⟨X, Y, heq, hp1, hp2, hc1, hc2⟩ :=
        ih B
          { A with
            available_votes := A.available_votes.erase v
            voted_for := dictSet A.voted_for B.name v } v
          (by
            show List.count v B.available_votes +
              List.count v (A.available_votes.erase v) ≤ n
            rw [List.count_erase_self]
            omega)
      exact ⟨Y, X, by rw [Participant.register_vote_by, dif_pos hv, heq],
        hp2, hp1, hc2, hc1⟩
    · exact ⟨A, B, by rw [Participant.register_vote_by, dif_neg hv], rfl, rfl, rfl, rfl⟩

/-- C1: the claim says casting a vote removes the value from the caster
only, records `voted_for` and `voted_by`, adds the target's points and
recomputes `can_vote`, atomically.  On the code, casting 12 from a fresh
"A" to a fresh "B" instead raises `IllegalVote` (line 76 recurses into
`register_vote_by` on the target), strips 12 from BOTH decks, writes
both `voted_for` entries, leaves both `points` at 0, touches no
`voted_by` map (the model declares none) and never recomputes
`can_vote`. -/
theorem c1_cast_raises_and_corrupts :
    Participant.register_vote_by pA pB 12 =
      .illegal
        { name := "A", available_votes := [10, 8, 7, 6, 5, 4, 3, 2, 1],
          voted_for := [("B", 12)] }
        { name := "B", available_votes := [10, 8, 7, 6, 5, 4, 3, 2, 1],
          voted_for := [("A", 12)] } := by
  simp +decide [pA, pB, Participant.register_vote_by, dictSet]

/-- C2: a vote value not present in the caster's `available_votes`
raises `IllegalVote` immediately, before any mutation, so both
participants (and a fortiori every other participant, which the call
never touches) come back exactly unchanged. -/
theorem c2_unavailable_vote_no_effect (A B : Participant) (v : Int)
    (h : v ∉ A.available_votes) :
    Participant.register_vote_by A B v = .illegal A B := by
  rw [Participant.register_vote_by, dif_neg h]

/-- Witness for C2 at a concrete input: 11 is not in the fresh deck. -/
theorem c2_unavailable_vote_no_effect_witness :
    (11 : Int) ∉ pA.available_votes ∧
    Participant.register_vote_by pA pB 11 = .illegal pA pB :=
  ⟨by decide, c2_unavailable_vote_no_effect pA pB 11 (by decide)⟩

/-- C3: the claim says `_get_participant` returns the named participant
when present and raises `ParticipantNotFound` otherwise.  On the code,
`self.participants.get(name)` is attribute access on a Python list,
which has no `get` method, so every lookup — including one for a name
that exists, as in the first conjunct — raises `AttributeError`
instead, and `ParticipantNotFound` is unreachable. -/
theorem c3_lookup_always_attribute_error :
    (Game._get_participant { participants := [pA] } "A" = .attributeError) ∧
    ∀ (g : Game) (n : String), Game._get_participant g n = .attributeError :=
  ⟨rfl, fun _ _ => rfl⟩

/-- C4 fails at construction: a record with an explicitly empty
`available_votes` and no `can_vote` key constructs a participant with
`can_vote = true` and an empty deck, so "can_vote is false iff
available_votes is empty" is violated by a constructed state. -/
theorem c4_counterexample :
    parseParticipant recZ = .ok pZ ∧
    pZ.can_vote = true ∧ pZ.available_votes = [] ∧
    ¬(pZ.can_vote = false ↔ pZ.available_votes = []) :=
  ⟨rfl, rfl, rfl, by decide⟩

/-- C4 (amended): at construction `can_vote` is just the record's
`can_vote` value defaulted to `true`, independent of `available_votes`;
for a record that leaves both fields absent the participant gets
`can_vote = true` together with the full non-empty deck, so the
equivalence "can_vote is false iff available_votes is empty" holds for
such records. -/
theorem c4_default_construction_equiv :
    ∀ (o : List (String × JValue)) (p : Participant),
      jlookup o "can_vote" = none →
      jlookup o "available_votes" = none →
      parseParticipant (.jobj o) = .ok p →
      p.can_vote = true ∧
      p.available_votes = [12, 10, 8, 7, 6, 5, 4, 3, 2, 1] ∧
      (p.can_vote = false ↔ p.available_votes = []) := by
  intro o p hcv hav h
  simp only [parseParticipant] at h
  rw [hcv, hav] at h
  simp only [parseAvD, parseBoolD] at h
  repeat' split at h
  all_goals first
    | exact Except.noConfusion h
    | (injection h with h2; subst h2; exact ⟨rfl, rfl, by simp⟩)

/-- Witness for C4 (amended) at the record `recW`. -/
theorem c4_default_construction_equiv_witness :
    parseParticipant recW = .ok pW ∧
    (pW.can_vote = true ∧
      pW.available_votes = [12, 10, 8, 7, 6, 5, 4, 3, 2, 1] ∧
      (pW.can_vote = false ↔ pW.available_votes = [])) :=
  ⟨rfl, c4_default_construction_equiv [("name", .jstr "W")] pW rfl rfl rfl⟩

/-- C5: the claim quantifies over successfully cast votes preserving
`|available_votes| + |voted_for|` at 10.  On the code no cast ever
succeeds: every call to `register_vote_by`, for every pair of
participants and every value, ends in a propagating `IllegalVote`. -/
theorem c5_no_cast_ever_succeeds (A B : Participant) (v : Int) :
    (Participant.register_vote_by A B v).isIllegal = true := by
  obtain ⟨A2, B2, heq, -, -, -, -⟩ :=
    register_vote_by_illegal
      (A.available_votes.count v + B.available_votes.count v) A B v le_rfl
  rw [heq]
  rfl

/-- C6: the claim ties the points total to the `voted_by` maps.  On the
code `points` never changes: `register_vote_for` — the only site that
adds points, and the only reference to a `voted_by` map, a field the
`Participant` model does not declare — is never called, so any cast-vote
attempt leaves both participants' `points` exactly as they were. -/
theorem c6_points_never_change (A B : Participant) (v : Int) :
    (Participant.register_vote_by A B v).selfState.points = A.points ∧
    (Participant.register_vote_by A B v).targetState.points = B.points := by
  obtain ⟨A2, B2, heq, hp1, hp2, -, -⟩ :=
    register_vote_by_illegal
      (A.available_votes.count v + B.available_votes.count v) A B v le_rfl
  rw [heq]
  exact ⟨hp1, hp2⟩

/-- C7: for a game loaded from a path, saving writes its document back
to the same normalized path, and loading that path again yields the very
same game in every field — save followed by load is the identity on
loaded games. -/
theorem c7_save_load_roundtrip {p : String} {fs : FileStore} {g : Game}
    (h : Game.load_game p fs = .ok g) :
    ∃ fs2, Game.save_game g fs = .ok fs2 ∧ Game.load_game p fs2 = .ok g :=
  save_then_load_id h

/-- Witness for C7 on the concrete store `fsRound`. -/
theorem c7_save_load_roundtrip_witness :
    Game.load_game "g.json" fsRound = .ok gRound ∧
    (∃ fs2, Game.save_game gRound fsRound = .ok fs2 ∧
      Game.load_game "g.json" fs2 = .ok gRound) :=
  ⟨rfl, c7_save_load_roundtrip rfl⟩

/-- C8 fails on the list form: the claim says a top-level JSON list of
participant records is accepted, but `data["participants"]` on a list
raises TypeError, so loading a list document fails. -/
theorem c8_counterexample :
    Game.load_game "list.json" fsForms = .error .typeError := rfl

/-- C8 (amended): `load_game` accepts only a JSON object carrying a
`participants` list — a top-level list document is rejected with a
TypeError — and builds one participant per record applying the
documented defaults for absent fields (available_votes the full deck,
voted_for empty, points 0, can_vote true, flags false; there is no
`voted_by` field to default), returning a game whose `save_file` is
`str(Path(p))`, the normalized form of the load path. -/
theorem c8_object_form_and_defaults :
    (∀ (p : String) (fs : FileStore) (l : List JValue),
      readFile fs p = some (.jarr l) →
      Game.load_game p fs = .error .typeError) ∧
    (∀ (p : String) (fs : FileStore) (nm : String),
      readFile fs p =
        some (.jobj [("participants", .jarr [.jobj [("name", .jstr nm)]])]) →
      Game.load_game p fs = .ok
        ⟨[⟨nm, none, 0, false, false, [12, 10, 8, 7, 6, 5, 4, 3, 2, 1],
          [], true, false⟩],
         some (pathStr p), none, none, none, none⟩) := by
  constructor
  · intro p fs l h
    unfold Game.load_game
    rw [h]
  · intro p fs nm h
    unfold Game.load_game
    rw [h]
    simp +decide [jlookup, parseParticipants, parseParticipant, parseOptStr,
      parseIntD, parseBoolD, parseAvD, parseVfD]

/-- Witness for C8 (amended) on the concrete store `fsForms`. -/
theorem c8_object_form_and_defaults_witness :
    Game.load_game "list.json" fsForms = .error .typeError ∧
    Game.load_game "obj.json" fsForms =
      .ok { participants := [{ name := "O" }], save_file := some "obj.json" } :=
  ⟨c8_object_form_and_defaults.1 "list.json" fsForms [] rfl,
   c8_object_form_and_defaults.2 "obj.json" fsForms "O" rfl⟩

/-- C9: when the default template document loads, `POST /reset` loads
it, repoints `save_file` at "game.json" and saves at once; a following
`GET /game` then returns exactly the template's participant list with
`save_file` at the canonical path — all prior votes and points in the
old "game.json" are overwritten unconditionally. -/
theorem c9_reset_then_get {fs : FileStore} {tg : Game}
    (h : Game.load_game "./default.game.json" fs = .ok tg) :
    ∃ fs2, reset_game fs = .ok fs2 ∧
      ∃ g2, get_game fs2 = .ok g2 ∧
        g2.participants = tg.participants ∧ g2.save_file = some "game.json" := by
  refine ⟨writeFile fs "game.json"
      (dumpGame { tg with save_file := some "game.json" }), ?_, ?_⟩
  · simp only [reset_game, h, Game.save_game]
  · refine ⟨⟨tg.participants, some "game.json", none, none, none, none⟩,
      ?_, rfl, rfl⟩
    have hp1 : pathStr "./game.json" = "game.json" := rfl
    have hp2 : pathStr "game.json" = "game.json" := rfl
    simp only [get_game, Game.load_game, readFile, writeFile, dumpGame,
      hp1, hp2, if_pos rfl, jlookup, parseParticipants_dump, reduceIte]

/-- Witness for C9 on the concrete template store `fsTemplate`. -/
theorem c9_reset_then_get_witness :
    Game.load_game "./default.game.json" fsTemplate = .ok gTemplate ∧
    (∃ fs2, reset_game fsTemplate = .ok fs2 ∧
      ∃ g2, get_game fs2 = .ok g2 ∧
        g2.participants = gTemplate.participants ∧
        g2.save_file = some "game.json") :=
  ⟨rfl, c9_reset_then_get rfl⟩

/-- C10 fails on the path clause: loading "./game.json" from a store
whose document carries non-null metadata succeeds and ignores the
metadata, but sets `save_file` to the normalized "game.json", which is
not the path "./game.json" the claim requires. -/
theorem c10_counterexample :
    Game.load_game "./game.json" fsMeta =
      .ok { participants := [], save_file := some "game.json" } ∧
    ({ participants := [], save_file := some "game.json" } : Game).save_file ≠
      some "./game.json" :=
  ⟨rfl, by decide⟩

/-- C10 (amended): `load_game` ignores every top-level field of the
document except `participants`: the loaded game always has `audio_name`,
`player_name`, `voter` and `vote_buff` equal to `None`, whatever the
document contains, and its `save_file` is `str(Path(p))` — the
normalized form of the load path, equal to `p` itself only when `p` is
already normalized. -/
theorem c10_load_ignores_metadata {p : String} {fs : FileStore} {g : Game}
    (h : Game.load_game p fs = .ok g) :
    g.audio_name = none ∧ g.player_name = none ∧ g.voter = none ∧
    g.vote_buff = none ∧ g.save_file = some (pathStr p) := by
  have hs := load_game_shape h
  exact ⟨by rw [hs], by rw [hs], by rw [hs], by rw [hs], by rw [hs]⟩

/-- Witness for C10 (amended) on the store `fsMeta`, whose persisted
document carries a non-null value for every metadata field. -/
theorem c10_load_ignores_metadata_witness :
    Game.load_game "./game.json" fsMeta =
      .ok { participants := [], save_file := some "game.json" } ∧
    (({ participants := [], save_file := some "game.json" } : Game).audio_name = none ∧
      ({ participants := [], save_file := some "game.json" } : Game).player_name = none ∧
      ({ participants := [], save_file := some "game.json" } : Game).voter = none ∧
      ({ participants := [], save_file := some "game.json" } : Game).vote_buff = none ∧
      ({ participants := [], save_file := some "game.json" } : Game).save_file =
        some (pathStr "./game.json")) :=
  ⟨rfl,
   @c10_load_ignores_metadata "./game.json" fsMeta
     { participants := [], save_file := some "game.json" } rfl⟩

end Euvote
